import Mathlib

/-!
Verification of the local response normalization (LRN) operator of the
deeplearnjs repository (src/ops/lrn.ts) against its natural-language
specification.

The repository source contains only the operator wrapper
`LRN.localResponseNormalization`: it validates the argument rank and the
integrality of the radius, reshapes a rank-3 input to rank 4 by adding a
batch dimension of size 1, delegates to the engine kernel `LRN4D`, and
reshapes the result back.  The numerical kernel itself is an external
collaborator that is not part of the supplied source; it is modelled here
from the specification (sections 4.1 and 7 of spec.md).

Tensors are modelled as a shape (a list of dimension sizes) together with a
flat row-major storage function, matching the dense row-major,
channel-innermost layout the specification fixes; reshaping is then a pure
metadata change, exactly as in the source (`as4D` / `as3D`).  Floating-point
values are idealized as real numbers.
-/

/-- A dense tensor: a shape and a flat row-major storage buffer. -/
structure Tensor where
  shape : List Nat
  data : Nat → Real

/-- The rank of a tensor is the length of its shape. -/
def Tensor.rank (t : Tensor) : Nat := t.shape.length

/-- Dimension i of the shape (0 outside the rank). -/
def Tensor.dim (t : Tensor) (i : Nat) : Nat := t.shape.getD i 0

/-- Reshape to rank 4: metadata only, the flat buffer is unchanged.
Mirrors `x.as4D(1, x.shape[0], x.shape[1], x.shape[2])` in the source. -/
def Tensor.as4D (t : Tensor) (a b c d : Nat) : Tensor :=
  { shape := [a, b, c, d], data := t.data }

/-- Reshape to rank 3: metadata only, the flat buffer is unchanged.
Mirrors `res.as3D(res.shape[1], res.shape[2], res.shape[3])` in the source. -/
def Tensor.as3D (t : Tensor) (a b c : Nat) : Tensor :=
  { shape := [a, b, c], data := t.data }

/-- Row-major flat index of the logical index (n, h, w, c) in a rank-4
tensor with shape (N, H, W, C). -/
def idx4 (H W C n h w c : Nat) : Nat := ((n * H + h) * W + w) * C + c

/-- Logical element (n, h, w, c) of a rank-4 tensor. -/
def Tensor.get4 (t : Tensor) (n h w c : Nat) : Real :=
  t.data (idx4 (t.dim 1) (t.dim 2) (t.dim 3) n h w c)

/-- Modelled from the spec: the value of one output element of the LRN
kernel in AcrossChannels mode (spec section 4.1): the sum of squares runs
over the channels in [max(0, c - radius), min(C - 1, c + radius)] at the
same spatial location; natural-number subtraction performs the clamp at 0. -/
noncomputable def lrnAcrossVal (x : Tensor) (radius : Nat)
    (bias alpha beta : Real) (n h w c : Nat) : Real :=
  let C := x.dim 3
  x.get4 n h w c /
    (bias + alpha *
      ∑ j ∈ Finset.Icc (c - radius) (min (C - 1) (c + radius)),
        (x.get4 n h w j) ^ 2) ^ beta

/-- Modelled from the spec: the value of one output element of the LRN
kernel in WithinChannel mode (spec section 4.1): the sum of squares runs
over the spatial offsets in [-radius, radius] x [-radius, radius] at the
same channel, clamped to the valid height and width bounds. -/
noncomputable def lrnWithinVal (x : Tensor) (radius : Nat)
    (bias alpha beta : Real) (n h w c : Nat) : Real :=
  let H := x.dim 1
  let W := x.dim 2
  x.get4 n h w c /
    (bias + alpha *
      ∑ i ∈ Finset.Icc (h - radius) (min (H - 1) (h + radius)),
        ∑ j ∈ Finset.Icc (w - radius) (min (W - 1) (w + radius)),
          (x.get4 n i j c) ^ 2) ^ beta

/-- Modelled from the spec: the value of one output element in the mode
selected by the region argument (WithinChannel when the region string says
so, AcrossChannels otherwise, which is the default mode of the source). -/
noncomputable def lrnVal (x : Tensor) (radius : Nat)
    (bias alpha beta : Real) (region : String) (n h w c : Nat) : Real :=
  if region = "withinChannel" then
    lrnWithinVal x radius bias alpha beta n h w c
  else
    lrnAcrossVal x radius bias alpha beta n h w c

/-- Modelled from the spec: the LRN kernel computation proper on a rank-4
tensor.  The output has the same shape as the input and a freshly built
buffer; each flat offset is decoded back to its logical index (row-major,
channel-innermost) and filled with the windowed normalization value of the
selected mode. -/
noncomputable def lrnCompute (x : Tensor) (radius : Nat)
    (bias alpha beta : Real) (region : String) : Tensor :=
  { shape := x.shape
    data := fun i =>
      lrnVal x radius bias alpha beta region
        (i / x.dim 3 / x.dim 2 / x.dim 1)
        (i / x.dim 3 / x.dim 2 % x.dim 1)
        (i / x.dim 3 % x.dim 2)
        (i % x.dim 3) }

/-- Whether a rational number is an integer; models `util.isInt` of the
source, which tests `num % 1 === 0`. -/
def isIntQ (r : Rat) : Prop := r.den = 1

instance (r : Rat) : Decidable (isIntQ r) := by
  unfold isIntQ; infer_instance

/-- Modelled from the spec: the LRN4D kernel boundary (spec sections 4.1
and 7).  The kernel is not part of the supplied source; per the spec it
validates synchronously at entry — rank exactly 4, radius a non-negative
integer, region one of the two recognized values — and raises
InvalidArgument before allocating any output; otherwise it returns the
computed tensor. -/
noncomputable def lrn4DKernel (x : Tensor) (radius : Rat)
    (bias alpha beta : Real) (region : String) : Except String Tensor :=
  if x.rank ≠ 4 then
    .error "InvalidArgument: x must be rank 4"
  else if ¬ (isIntQ radius ∧ 0 ≤ radius) then
    .error "InvalidArgument: radius must be a non-negative integer"
  else if ¬ (region = "acrossChannels" ∨ region = "withinChannel") then
    .error "InvalidArgument: normRegion must be acrossChannels or withinChannel"
  else
    .ok (lrnCompute x radius.num.toNat bias alpha beta region)

/-- The operator wrapper `LRN.localResponseNormalization` of
src/ops/lrn.ts: asserts that the input rank is 3 or 4, asserts that the
radius is an integer, reshapes a rank-3 input to rank 4 with a leading
batch dimension of size 1, executes the LRN4D kernel, and for a rank-3
caller strips the batch dimension from the result. -/
noncomputable def localResponseNormalization (x : Tensor) (radius : Rat)
    (bias alpha beta : Real) (normRegion : String) : Except String Tensor :=
  if ¬ (x.rank = 4 ∨ x.rank = 3) then
    .error "Error in localResponseNormalization: x must be rank 3 or 4"
  else if ¬ isIntQ radius then
    .error "Error in localResponseNormalization3D: radius must be an integer"
  else
    match lrn4DKernel
        (if x.rank = 3 then x.as4D 1 (x.dim 0) (x.dim 1) (x.dim 2) else x)
        radius bias alpha beta normRegion with
    | .error e => .error e
    | .ok res =>
        if x.rank = 3 then
          .ok (res.as3D (res.dim 1) (res.dim 2) (res.dim 3))
        else
          .ok res

/-- The source wrapper with the default arguments of the source signature:
radius = 5, bias = 1, alpha = 1, beta = 0.5, normRegion = acrossChannels. -/
noncomputable def localResponseNormalizationDefault (x : Tensor) :
    Except String Tensor :=
  localResponseNormalization x 5 1 1 (1 / 2) "acrossChannels"

/-- The concrete scenario tensor of the spec: shape (1, 1, 1, 3) with
values 1, 2, 3. -/
noncomputable def xC2 : Tensor :=
  { shape := [1, 1, 1, 3]
    data := fun i => if i = 0 then 1 else if i = 1 then 2 else 3 }

/-- A rank-4 tensor of shape (1, 2, 2, 1) used to exercise the
WithinChannel spatial window. -/
noncomputable def xC3 : Tensor :=
  { shape := [1, 2, 2, 1]
    data := fun i => if i = 0 then 1 else if i = 1 then 2 else 3 }

/-- A rank-2 tensor, an input the operator must reject. -/
noncomputable def xR2 : Tensor :=
  { shape := [2, 3], data := fun _ => 1 }

/-- A rank-3 tensor of shape (1, 1, 3) with values 1, 2, 3, used to
exercise the rank adapter. -/
noncomputable def xR3 : Tensor :=
  { shape := [1, 1, 3]
    data := fun i => if i = 0 then 1 else if i = 1 then 2 else 3 }

/-! ## Index arithmetic: decoding a row-major flat offset -/

/-- One level of row-major decoding: dividing and taking the remainder by a
dimension size recovers the coordinate packed at that level. -/
theorem mod_div_of_lt (m k r : Nat) (hr : r < k) :
    (m * k + r) % k = r ∧ (m * k + r) / k = m := by
  have hk : 0 < k := Nat.lt_of_le_of_lt (Nat.zero_le r) hr
  constructor
  · rw [Nat.mul_comm, Nat.mul_add_mod]
    exact Nat.mod_eq_of_lt hr
  · rw [Nat.mul_comm, Nat.mul_add_div hk, Nat.div_eq_of_lt hr, Nat.add_zero]

/-- Decoding the row-major flat offset of an in-bounds logical index
recovers that index. -/
theorem decode_idx4 (H W C n h w c : Nat)
    (hh : h < H) (hw : w < W) (hc : c < C) :
    idx4 H W C n h w c % C = c ∧
    idx4 H W C n h w c / C % W = w ∧
    idx4 H W C n h w c / C / W % H = h ∧
    idx4 H W C n h w c / C / W / H = n := by
  unfold idx4
  obtain ⟨e1, e2⟩ := mod_div_of_lt ((n * H + h) * W + w) C c hc
  obtain ⟨e3, e4⟩ := mod_div_of_lt (n * H + h) W w hw
  obtain ⟨e5, e6⟩ := mod_div_of_lt n H h hh
  refine ⟨e1, ?_, ?_, ?_⟩
  · rw [e2, e3]
  · rw [e2, e4, e5]
  · rw [e2, e4, e6]

/-- Reading an in-bounds logical element of the kernel output yields the
windowed normalization value of that element. -/
theorem get4_lrnCompute (x : Tensor) (radius : Nat)
    (bias alpha beta : Real) (region : String) (n h w c : Nat)
    (hh : h < x.dim 1) (hw : w < x.dim 2) (hc : c < x.dim 3) :
    (lrnCompute x radius bias alpha beta region).get4 n h w c =
      lrnVal x radius bias alpha beta region n h w c := by
  have hdim : ∀ i, (lrnCompute x radius bias alpha beta region).dim i = x.dim i := by
    intro i; rfl
  obtain ⟨e1, e2, e3, e4⟩ :=
    decode_idx4 (x.dim 1) (x.dim 2) (x.dim 3) n h w c hh hw hc
  show lrnVal x radius bias alpha beta region _ _ _ _ = _
  rw [hdim, hdim, hdim] at *
  rw [e1, e2, e3, e4]

/-! ## Helper lemmas about the kernel and the two modes -/

/-- The mode selector picks the AcrossChannels formula for the
acrossChannels region string. -/
theorem lrnVal_across_eq (x : Tensor) (radius : Nat)
    (bias alpha beta : Real) (n h w c : Nat) :
    lrnVal x radius bias alpha beta "acrossChannels" n h w c =
      lrnAcrossVal x radius bias alpha beta n h w c := by
  unfold lrnVal
  rw [if_neg (by decide)]

/-- The mode selector picks the WithinChannel formula for the
withinChannel region string. -/
theorem lrnVal_within_eq (x : Tensor) (radius : Nat)
    (bias alpha beta : Real) (n h w c : Nat) :
    lrnVal x radius bias alpha beta "withinChannel" n h w c =
      lrnWithinVal x radius bias alpha beta n h w c := by
  unfold lrnVal
  rw [if_pos rfl]

/-- In-bounds elements of the kernel output in AcrossChannels mode are
given by the channel-window formula. -/
theorem get4_lrnCompute_across (x : Tensor) (radius : Nat)
    (bias alpha beta : Real) (n h w c : Nat)
    (hh : h < x.dim 1) (hw : w < x.dim 2) (hc : c < x.dim 3) :
    (lrnCompute x radius bias alpha beta "acrossChannels").get4 n h w c =
      x.get4 n h w c /
        (bias + alpha *
          ∑ j ∈ Finset.Icc (c - radius) (min (x.dim 3 - 1) (c + radius)),
            (x.get4 n h w j) ^ 2) ^ beta := by
  rw [get4_lrnCompute x radius bias alpha beta "acrossChannels" n h w c hh hw hc,
    lrnVal_across_eq]
  rfl

/-- In-bounds elements of the kernel output in WithinChannel mode are
given by the spatial-window formula. -/
theorem get4_lrnCompute_within (x : Tensor) (radius : Nat)
    (bias alpha beta : Real) (n h w c : Nat)
    (hh : h < x.dim 1) (hw : w < x.dim 2) (hc : c < x.dim 3) :
    (lrnCompute x radius bias alpha beta "withinChannel").get4 n h w c =
      x.get4 n h w c /
        (bias + alpha *
          ∑ i ∈ Finset.Icc (h - radius) (min (x.dim 1 - 1) (h + radius)),
            ∑ j ∈ Finset.Icc (w - radius) (min (x.dim 2 - 1) (w + radius)),
              (x.get4 n i j c) ^ 2) ^ beta := by
  rw [get4_lrnCompute x radius bias alpha beta "withinChannel" n h w c hh hw hc,
    lrnVal_within_eq]
  rfl

/-- The kernel succeeds on a rank-4 input with a non-negative integer
radius and a recognized region, returning the computed tensor. -/
theorem lrn4DKernel_ok (x : Tensor) (radius : Rat)
    (bias alpha beta : Real) (region : String)
    (h4 : x.rank = 4) (hint : isIntQ radius) (hpos : 0 ≤ radius)
    (hreg : region = "acrossChannels" ∨ region = "withinChannel") :
    lrn4DKernel x radius bias alpha beta region =
      .ok (lrnCompute x radius.num.toNat bias alpha beta region) := by
  unfold lrn4DKernel
  rw [if_neg (not_not_intro h4), if_neg (not_not_intro ⟨hint, hpos⟩),
    if_neg (not_not_intro hreg)]

/-- The kernel rejects a radius that is not a non-negative integer on any
rank-4 input. -/
theorem lrn4DKernel_err_radius (x : Tensor) (radius : Rat)
    (bias alpha beta : Real) (region : String)
    (h4 : x.rank = 4) (hbad : ¬ (isIntQ radius ∧ 0 ≤ radius)) :
    lrn4DKernel x radius bias alpha beta region =
      .error "InvalidArgument: radius must be a non-negative integer" := by
  unfold lrn4DKernel
  rw [if_neg (not_not_intro h4), if_pos hbad]

/-- The kernel rejects an unrecognized region string when the rank and the
radius are valid. -/
theorem lrn4DKernel_err_region (x : Tensor) (radius : Rat)
    (bias alpha beta : Real) (region : String)
    (h4 : x.rank = 4) (hint : isIntQ radius) (hpos : 0 ≤ radius)
    (hreg : ¬ (region = "acrossChannels" ∨ region = "withinChannel")) :
    lrn4DKernel x radius bias alpha beta region =
      .error "InvalidArgument: normRegion must be acrossChannels or withinChannel" := by
  unfold lrn4DKernel
  rw [if_neg (not_not_intro h4), if_neg (not_not_intro ⟨hint, hpos⟩),
    if_pos hreg]

/-- A list of length 3 is the list of its first three entries. -/
theorem list_three_eq (l : List Nat) (h : l.length = 3) :
    l = [l.getD 0 0, l.getD 1 0, l.getD 2 0] := by
  rcases l with _ | ⟨a, _ | ⟨b, _ | ⟨c, _ | ⟨d, t⟩⟩⟩⟩ <;> simp_all

/-! ## Helper lemmas about the wrapper -/

/-- A successful kernel call returns exactly the computed tensor. -/
theorem lrn4DKernel_ok_inv (x : Tensor) (radius : Rat)
    (bias alpha beta : Real) (region : String) (res : Tensor)
    (hk : lrn4DKernel x radius bias alpha beta region = .ok res) :
    res = lrnCompute x radius.num.toNat bias alpha beta region := by
  unfold lrn4DKernel at hk
  by_cases h1 : x.rank ≠ 4
  · rw [if_pos h1] at hk
    exact Except.noConfusion hk
  rw [if_neg h1] at hk
  by_cases h2 : ¬ (isIntQ radius ∧ 0 ≤ radius)
  · rw [if_pos h2] at hk
    exact Except.noConfusion hk
  rw [if_neg h2] at hk
  by_cases h3 : ¬ (region = "acrossChannels" ∨ region = "withinChannel")
  · rw [if_pos h3] at hk
    exact Except.noConfusion hk
  rw [if_neg h3] at hk
  exact (Except.ok.inj hk).symm

/-- On a rank-4 input with an integer radius, the wrapper is exactly the
kernel call: nothing is reshaped on the way in or out. -/
theorem wrapper_rank4_eq (x : Tensor) (radius : Rat)
    (bias alpha beta : Real) (region : String)
    (h4 : x.rank = 4) (hint : isIntQ radius) :
    localResponseNormalization x radius bias alpha beta region =
      lrn4DKernel x radius bias alpha beta region := by
  unfold localResponseNormalization
  rw [if_neg (not_not_intro (Or.inl h4)), if_neg (not_not_intro hint),
    if_neg (show ¬ x.rank = 3 by omega)]
  cases hk : lrn4DKernel x radius bias alpha beta region with
  | error e => rfl
  | ok res =>
      show (if x.rank = 3 then
          Except.ok (res.as3D (res.dim 1) (res.dim 2) (res.dim 3))
        else Except.ok res) = Except.ok res
      rw [if_neg (show ¬ x.rank = 3 by omega)]

/-- On a rank-3 input with an integer radius, the wrapper is the kernel
call on the batch-1 reshape, with the batch dimension stripped from a
successful result. -/
theorem wrapper_rank3_eq (x : Tensor) (radius : Rat)
    (bias alpha beta : Real) (region : String)
    (h3 : x.rank = 3) (hint : isIntQ radius) :
    localResponseNormalization x radius bias alpha beta region =
      (lrn4DKernel (x.as4D 1 (x.dim 0) (x.dim 1) (x.dim 2))
          radius bias alpha beta region).map
        (fun res => res.as3D (res.dim 1) (res.dim 2) (res.dim 3)) := by
  unfold localResponseNormalization
  rw [if_neg (not_not_intro (Or.inr h3)), if_neg (not_not_intro hint), if_pos h3]
  cases hk : lrn4DKernel (x.as4D 1 (x.dim 0) (x.dim 1) (x.dim 2))
      radius bias alpha beta region with
  | error e => rfl
  | ok res =>
      show (if x.rank = 3 then
          Except.ok (res.as3D (res.dim 1) (res.dim 2) (res.dim 3))
        else Except.ok res) =
        Except.ok (res.as3D (res.dim 1) (res.dim 2) (res.dim 3))
      rw [if_pos h3]

/-- The wrapper propagates the integrality failure of the radius as an
error, whatever the other arguments. -/
theorem wrapper_err_radius_int (x : Tensor) (radius : Rat)
    (bias alpha beta : Real) (region : String)
    (hrank : x.rank = 4 ∨ x.rank = 3) (hint : ¬ isIntQ radius) :
    localResponseNormalization x radius bias alpha beta region =
      .error "Error in localResponseNormalization3D: radius must be an integer" := by
  unfold localResponseNormalization
  rw [if_neg (not_not_intro hrank), if_pos hint]

/-- The tensor handed to the kernel always has rank 4 when the caller
rank is accepted. -/
theorem x4D_rank (x : Tensor) (hrank : x.rank = 4 ∨ x.rank = 3) :
    (if x.rank = 3 then x.as4D 1 (x.dim 0) (x.dim 1) (x.dim 2) else x).rank = 4 := by
  rcases hrank with h | h
  · rw [if_neg (show ¬ x.rank = 3 by omega)]
    exact h
  · rw [if_pos h]
    rfl

/-- Shape preservation of any successful wrapper call. -/
theorem wrapper_ok_shape (x : Tensor) (radius : Rat)
    (bias alpha beta : Real) (region : String) (y : Tensor)
    (hy : localResponseNormalization x radius bias alpha beta region = .ok y) :
    y.shape = x.shape := by
  by_cases hrank : x.rank = 4 ∨ x.rank = 3
  · by_cases hint : isIntQ radius
    · rcases hrank with h4 | h3
      · rw [wrapper_rank4_eq x radius bias alpha beta region h4 hint] at hy
        rw [lrn4DKernel_ok_inv x radius bias alpha beta region y hy]
        rfl
      · rw [wrapper_rank3_eq x radius bias alpha beta region h3 hint] at hy
        cases hk : lrn4DKernel (x.as4D 1 (x.dim 0) (x.dim 1) (x.dim 2))
            radius bias alpha beta region with
        | error e =>
            rw [hk] at hy
            exact Except.noConfusion hy
        | ok res =>
            rw [hk] at hy
            have hres := lrn4DKernel_ok_inv _ radius bias alpha beta region res hk
            have hyv : y = res.as3D (res.dim 1) (res.dim 2) (res.dim 3) :=
              (Except.ok.inj hy).symm
            rw [hyv, hres]
            exact (list_three_eq x.shape h3).symm
    · rw [wrapper_err_radius_int x radius bias alpha beta region hrank hint] at hy
      exact Except.noConfusion hy
  · unfold localResponseNormalization at hy
    rw [if_pos hrank] at hy
    exact Except.noConfusion hy

/-! ## Claim theorems -/

/-- C4: calling the operation with an input tensor whose rank is not an
accepted rank (for example rank 2) fails with the InvalidArgument rank
assertion before any computation; the result is the error, never a
partial tensor. -/
theorem lrn_rank_error (x : Tensor) (radius : Rat)
    (bias alpha beta : Real) (region : String)
    (h4 : x.rank ≠ 4) (h3 : x.rank ≠ 3) :
    localResponseNormalization x radius bias alpha beta region =
      .error "Error in localResponseNormalization: x must be rank 3 or 4" := by
  unfold localResponseNormalization
  rw [if_pos (not_or.mpr ⟨h4, h3⟩)]

/-- C4 witness: the rank-2 tensor is rejected. -/
theorem lrn_rank_error_witness :
    localResponseNormalization xR2 5 1 1 (1 / 2) "acrossChannels" =
      .error "Error in localResponseNormalization: x must be rank 3 or 4" :=
  lrn_rank_error xR2 5 1 1 (1 / 2) "acrossChannels" (by decide) (by decide)

/-- C5: a radius that is not a non-negative integer is rejected with an
error: a non-integer radius fails the wrapper assertion, and a negative
integer radius fails the kernel validation. -/
theorem lrn_radius_error (x : Tensor) (radius : Rat)
    (bias alpha beta : Real) (region : String)
    (hbad : ¬ (isIntQ radius ∧ 0 ≤ radius)) :
    ∃ e, localResponseNormalization x radius bias alpha beta region =
      .error e := by
  by_cases hrank : x.rank = 4 ∨ x.rank = 3
  · by_cases hint : isIntQ radius
    · unfold localResponseNormalization
      rw [if_neg (not_not_intro hrank), if_neg (not_not_intro hint),
        lrn4DKernel_err_radius _ radius bias alpha beta region
          (x4D_rank x hrank) hbad]
      exact ⟨_, rfl⟩
    · exact ⟨_, wrapper_err_radius_int x radius bias alpha beta region hrank hint⟩
  · unfold localResponseNormalization
    rw [if_pos hrank]
    exact ⟨_, rfl⟩

/-- C5 witness: radius 5/2 and radius -1 are both rejected on a valid
rank-4 input. -/
theorem lrn_radius_error_witness :
    (∃ e, localResponseNormalization xC2 (5 / 2) 1 1 (1 / 2) "acrossChannels" =
      .error e) ∧
    (∃ e, localResponseNormalization xC2 (-1) 1 1 (1 / 2) "acrossChannels" =
      .error e) :=
  ⟨lrn_radius_error xC2 (5 / 2) 1 1 (1 / 2) "acrossChannels" (by norm_num [isIntQ]),
   lrn_radius_error xC2 (-1) 1 1 (1 / 2) "acrossChannels" (by norm_num [isIntQ])⟩

/-- C6: a region value that is neither acrossChannels nor withinChannel
is rejected with an error before any computation. -/
theorem lrn_region_error (x : Tensor) (radius : Rat)
    (bias alpha beta : Real) (region : String)
    (hreg : ¬ (region = "acrossChannels" ∨ region = "withinChannel")) :
    ∃ e, localResponseNormalization x radius bias alpha beta region =
      .error e := by
  by_cases hrank : x.rank = 4 ∨ x.rank = 3
  · by_cases hint : isIntQ radius
    · by_cases hpos : 0 ≤ radius
      · unfold localResponseNormalization
        rw [if_neg (not_not_intro hrank), if_neg (not_not_intro hint),
          lrn4DKernel_err_region _ radius bias alpha beta region
            (x4D_rank x hrank) hint hpos hreg]
        exact ⟨_, rfl⟩
      · unfold localResponseNormalization
        rw [if_neg (not_not_intro hrank), if_neg (not_not_intro hint),
          lrn4DKernel_err_radius _ radius bias alpha beta region
            (x4D_rank x hrank) (fun hc => hpos hc.2)]
        exact ⟨_, rfl⟩
    · exact ⟨_, wrapper_err_radius_int x radius bias alpha beta region hrank hint⟩
  · unfold localResponseNormalization
    rw [if_pos hrank]
    exact ⟨_, rfl⟩

/-- C6 witness: the region string diagonal is rejected on a valid rank-4
input. -/
theorem lrn_region_error_witness :
    ∃ e, localResponseNormalization xC2 1 1 1 (1 / 2) "diagonal" = .error e :=
  lrn_region_error xC2 1 1 1 (1 / 2) "diagonal" (by decide)

/-- C10: the default-argument call fixes radius = 5, bias = 1, alpha = 1,
beta = 0.5, normRegion = acrossChannels, and on a rank-4 input these five
values are handed unchanged to the single kernel invocation. -/
theorem lrn_default_params (x : Tensor) (h4 : x.rank = 4) :
    localResponseNormalizationDefault x =
      lrn4DKernel x 5 1 1 (1 / 2) "acrossChannels" := by
  unfold localResponseNormalizationDefault
  exact wrapper_rank4_eq x 5 1 1 (1 / 2) "acrossChannels" h4 (by decide)

/-- C10 witness: the default call on the concrete rank-4 tensor is the
kernel call with the five default values. -/
theorem lrn_default_params_witness :
    localResponseNormalizationDefault xC2 =
      lrn4DKernel xC2 5 1 1 (1 / 2) "acrossChannels" :=
  lrn_default_params xC2 (by decide)

/-- C1: on every valid input the operation succeeds and returns a tensor
with exactly the shape of the input: the same rank and the same size in
every dimension, for rank-4 and rank-3 callers alike. -/
theorem lrn_output_shape (x : Tensor) (radius : Rat)
    (bias alpha beta : Real) (region : String)
    (hrank : x.rank = 4 ∨ x.rank = 3) (hint : isIntQ radius)
    (hpos : 0 ≤ radius)
    (hreg : region = "acrossChannels" ∨ region = "withinChannel") :
    ∃ y, localResponseNormalization x radius bias alpha beta region = .ok y ∧
      y.shape = x.shape ∧ y.rank = x.rank := by
  have hok : ∃ y, localResponseNormalization x radius bias alpha beta region =
      .ok y := by
    rcases hrank with h4 | h3
    · rw [wrapper_rank4_eq x radius bias alpha beta region h4 hint,
        lrn4DKernel_ok x radius bias alpha beta region h4 hint hpos hreg]
      exact ⟨_, rfl⟩
    · rw [wrapper_rank3_eq x radius bias alpha beta region h3 hint,
        lrn4DKernel_ok (x.as4D 1 (x.dim 0) (x.dim 1) (x.dim 2))
          radius bias alpha beta region rfl hint hpos hreg]
      exact ⟨_, rfl⟩
  obtain ⟨y, hy⟩ := hok
  have hs := wrapper_ok_shape x radius bias alpha beta region y hy
  exact ⟨y, hy, hs, congrArg List.length hs⟩

/-- C1 witness: a rank-3 call succeeds with the original three
dimensions. -/
theorem lrn_output_shape_witness :
    ∃ y, localResponseNormalization xR3 5 1 1 (1 / 2) "acrossChannels" =
      .ok y ∧ y.shape = xR3.shape ∧ y.rank = xR3.rank :=
  lrn_output_shape xR3 5 1 1 (1 / 2) "acrossChannels" (Or.inr (by decide))
    (by decide) (by decide) (Or.inl rfl)

/-- C7: for a rank-3 input the operation equals the same call on the
batch-1 reshape with the batch dimension stripped from the result, and a
successful result is rank 3 with the original three dimensions. -/
theorem lrn_rank3_adapter (x : Tensor) (radius : Rat)
    (bias alpha beta : Real) (region : String) (h3 : x.rank = 3) :
    localResponseNormalization x radius bias alpha beta region =
      (localResponseNormalization (x.as4D 1 (x.dim 0) (x.dim 1) (x.dim 2))
          radius bias alpha beta region).map
        (fun res => res.as3D (res.dim 1) (res.dim 2) (res.dim 3)) ∧
    (∀ y, localResponseNormalization x radius bias alpha beta region = .ok y →
      y.rank = 3 ∧ y.shape = x.shape) := by
  constructor
  · by_cases hint : isIntQ radius
    · rw [wrapper_rank3_eq x radius bias alpha beta region h3 hint,
        wrapper_rank4_eq (x.as4D 1 (x.dim 0) (x.dim 1) (x.dim 2))
          radius bias alpha beta region rfl hint]
    · rw [wrapper_err_radius_int x radius bias alpha beta region (Or.inr h3) hint,
        wrapper_err_radius_int (x.as4D 1 (x.dim 0) (x.dim 1) (x.dim 2))
          radius bias alpha beta region (Or.inl rfl) hint]
      rfl
  · intro y hy
    have hs := wrapper_ok_shape x radius bias alpha beta region y hy
    have hr : y.rank = x.rank := congrArg List.length hs
    rw [hr, h3]
    exact ⟨rfl, hs⟩

/-- C7 witness: the adapter round trip on the concrete rank-3 tensor. -/
theorem lrn_rank3_adapter_witness :
    localResponseNormalization xR3 5 1 1 (1 / 2) "acrossChannels" =
      (localResponseNormalization (xR3.as4D 1 (xR3.dim 0) (xR3.dim 1) (xR3.dim 2))
          5 1 1 (1 / 2) "acrossChannels").map
        (fun res => res.as3D (res.dim 1) (res.dim 2) (res.dim 3)) ∧
    (∀ y, localResponseNormalization xR3 5 1 1 (1 / 2) "acrossChannels" = .ok y →
      y.rank = 3 ∧ y.shape = xR3.shape) :=
  lrn_rank3_adapter xR3 5 1 1 (1 / 2) "acrossChannels" (by decide)

/-- C8: with radius 0 the two modes agree and reduce to the elementwise
formula in which the window is the single element itself. -/
theorem lrn_radius_zero (x : Tensor) (bias alpha beta : Real) (n h w c : Nat)
    (hh : h < x.dim 1) (hw : w < x.dim 2) (hc : c < x.dim 3) :
    (lrnCompute x 0 bias alpha beta "acrossChannels").get4 n h w c =
      x.get4 n h w c / (bias + alpha * (x.get4 n h w c) ^ 2) ^ beta ∧
    (lrnCompute x 0 bias alpha beta "withinChannel").get4 n h w c =
      x.get4 n h w c / (bias + alpha * (x.get4 n h w c) ^ 2) ^ beta := by
  have hcc : min (x.dim 3 - 1) (c + 0) = c := by omega
  have hhh : min (x.dim 1 - 1) (h + 0) = h := by omega
  have hww : min (x.dim 2 - 1) (w + 0) = w := by omega
  constructor
  · rw [get4_lrnCompute_across x 0 bias alpha beta n h w c hh hw hc,
      hcc, Nat.sub_zero, Finset.Icc_self, Finset.sum_singleton]
  · rw [get4_lrnCompute_within x 0 bias alpha beta n h w c hh hw hc,
      hhh, hww, Nat.sub_zero, Nat.sub_zero, Finset.Icc_self, Finset.Icc_self,
      Finset.sum_singleton, Finset.sum_singleton]

/-- C8 witness: with radius 0 the concrete scenario tensor is normalized
elementwise in both modes. -/
theorem lrn_radius_zero_witness :
    (lrnCompute xC2 0 1 1 (1 / 2) "acrossChannels").get4 0 0 0 1 =
      xC2.get4 0 0 0 1 / (1 + 1 * (xC2.get4 0 0 0 1) ^ 2) ^ ((1 : Real) / 2) ∧
    (lrnCompute xC2 0 1 1 (1 / 2) "withinChannel").get4 0 0 0 1 =
      xC2.get4 0 0 0 1 / (1 + 1 * (xC2.get4 0 0 0 1) ^ 2) ^ ((1 : Real) / 2) :=
  lrn_radius_zero xC2 1 1 (1 / 2) 0 0 0 1 (by decide) (by decide) (by decide)

/-- C3: any in-bounds element of a successful WithinChannel kernel call is
the input element divided by (bias + alpha * sumSq) ^ beta, where sumSq
ranges over the spatial window of half-width radius around (h, w) at the
same channel, clamped to the valid bounds. -/
theorem lrn_withinChannel_formula (x : Tensor) (radius : Nat)
    (bias alpha beta : Real) (n h w c : Nat) (y : Tensor)
    (hh : h < x.dim 1) (hw : w < x.dim 2) (hc : c < x.dim 3)
    (hy : lrn4DKernel x (radius : Rat) bias alpha beta "withinChannel" = .ok y) :
    y.get4 n h w c =
      x.get4 n h w c /
        (bias + alpha *
          ∑ i ∈ Finset.Icc (h - radius) (min (x.dim 1 - 1) (h + radius)),
            ∑ j ∈ Finset.Icc (w - radius) (min (x.dim 2 - 1) (w + radius)),
              (x.get4 n i j c) ^ 2) ^ beta := by
  rw [lrn4DKernel_ok_inv x (radius : Rat) bias alpha beta "withinChannel" y hy]
  have hr : ((radius : Rat)).num.toNat = radius := by simp
  rw [hr]
  exact get4_lrnCompute_within x radius bias alpha beta n h w c hh hw hc

/-- C3 witness: the spatial-window formula at element (0, 1, 1, 0) of the
concrete (1, 2, 2, 1) tensor. -/
theorem lrn_withinChannel_formula_witness :
    (lrnCompute xC3 1 1 1 (1 / 2) "withinChannel").get4 0 1 1 0 =
      xC3.get4 0 1 1 0 /
        (1 + 1 *
          ∑ i ∈ Finset.Icc (1 - 1) (min (xC3.dim 1 - 1) (1 + 1)),
            ∑ j ∈ Finset.Icc (1 - 1) (min (xC3.dim 2 - 1) (1 + 1)),
              (xC3.get4 0 i j 0) ^ 2) ^ ((1 : Real) / 2) :=
  lrn_withinChannel_formula xC3 1 1 1 (1 / 2) 0 1 1 0
    (lrnCompute xC3 1 1 1 (1 / 2) "withinChannel")
    (by decide) (by decide) (by decide) rfl

/-- C2: in AcrossChannels mode every in-bounds element of a successful
kernel call is the input element divided by (bias + alpha * sumSq) ^ beta
with sumSq over the clamped channel window [max(0, c - radius),
min(C - 1, c + radius)]; with C = 3 and radius = 5 every window is the
full range [0, 2]; and on the (1, 1, 1, 3) tensor with values 1, 2, 3 and
radius 1, bias 1, alpha 1, beta 0.5 the outputs are 1 / sqrt 6,
2 / sqrt 15 and 3 / sqrt 14. -/
theorem lrn_acrossChannels_formula :
    (∀ (x : Tensor) (radius : Nat) (bias alpha beta : Real)
        (n h w c : Nat) (y : Tensor),
      h < x.dim 1 → w < x.dim 2 → c < x.dim 3 →
      lrn4DKernel x (radius : Rat) bias alpha beta "acrossChannels" = .ok y →
      y.get4 n h w c =
        x.get4 n h w c /
          (bias + alpha *
            ∑ j ∈ Finset.Icc (c - radius) (min (x.dim 3 - 1) (c + radius)),
              (x.get4 n h w j) ^ 2) ^ beta) ∧
    (∀ c < 3, Finset.Icc (c - 5) (min (3 - 1) (c + 5)) = Finset.Icc 0 2) ∧
    (∃ y, lrn4DKernel xC2 1 1 1 (1 / 2) "acrossChannels" = .ok y ∧
      y.data 0 = 1 / Real.sqrt 6 ∧
      y.data 1 = 2 / Real.sqrt 15 ∧
      y.data 2 = 3 / Real.sqrt 14) := by
  refine ⟨?_, by decide, ?_⟩
  · intro x radius bias alpha beta n h w c y hh hw hc hy
    rw [lrn4DKernel_ok_inv x (radius : Rat) bias alpha beta "acrossChannels" y hy]
    have hr : ((radius : Rat)).num.toNat = radius := by simp
    rw [hr]
    exact get4_lrnCompute_across x radius bias alpha beta n h w c hh hw hc
  · refine ⟨lrnCompute xC2 1 1 1 (1 / 2) "acrossChannels", rfl, ?_, ?_, ?_⟩
    · have e : (lrnCompute xC2 1 1 1 (1 / 2) "acrossChannels").data 0 =
          lrnAcrossVal xC2 1 1 1 (1 / 2) 0 0 0 0 := by
        simp only [lrnCompute, lrnVal, xC2, Tensor.dim]
        norm_num
        exact fun h => absurd h (by decide)
      rw [e, Real.sqrt_eq_rpow]
      simp only [lrnAcrossVal, Tensor.get4, Tensor.dim, xC2, idx4]
      norm_num
      rw [show Finset.Icc (0 : Nat) 1 = ({0, 1} : Finset Nat) from by decide]
      rw [Finset.sum_insert (by decide), Finset.sum_singleton]
      norm_num
    · have e : (lrnCompute xC2 1 1 1 (1 / 2) "acrossChannels").data 1 =
          lrnAcrossVal xC2 1 1 1 (1 / 2) 0 0 0 1 := by
        simp only [lrnCompute, lrnVal, xC2, Tensor.dim]
        norm_num
        exact fun h => absurd h (by decide)
      rw [e, Real.sqrt_eq_rpow]
      simp only [lrnAcrossVal, Tensor.get4, Tensor.dim, xC2, idx4]
      norm_num
      rw [show Finset.Icc (0 : Nat) 2 = ({0, 1, 2} : Finset Nat) from by decide]
      rw [Finset.sum_insert (by decide), Finset.sum_insert (by decide),
        Finset.sum_singleton]
      norm_num
    · have e : (lrnCompute xC2 1 1 1 (1 / 2) "acrossChannels").data 2 =
          lrnAcrossVal xC2 1 1 1 (1 / 2) 0 0 0 2 := by
        simp only [lrnCompute, lrnVal, xC2, Tensor.dim]
        norm_num
        exact fun h => absurd h (by decide)
      rw [e, Real.sqrt_eq_rpow]
      simp only [lrnAcrossVal, Tensor.get4, Tensor.dim, xC2, idx4]
      norm_num
      rw [show Finset.Icc (1 : Nat) 2 = ({1, 2} : Finset Nat) from by decide]
      rw [Finset.sum_insert (by decide), Finset.sum_singleton]
      norm_num

/-- C2 witness: the channel-window formula instantiated at element
(0, 0, 0, 1) of the concrete scenario tensor. -/
theorem lrn_acrossChannels_formula_witness :
    (lrnCompute xC2 1 1 1 (1 / 2) "acrossChannels").get4 0 0 0 1 =
      xC2.get4 0 0 0 1 /
        (1 + 1 *
          ∑ j ∈ Finset.Icc (1 - 1) (min (xC2.dim 3 - 1) (1 + 1)),
            (xC2.get4 0 0 0 j) ^ 2) ^ ((1 : Real) / 2) :=
  lrn_acrossChannels_formula.1 xC2 1 1 1 (1 / 2) 0 0 0 1
    (lrnCompute xC2 1 1 1 (1 / 2) "acrossChannels")
    (by decide) (by decide) (by decide) rfl
